import Mathlib

/-!
Verification development for the qubership-credential-manager repository.

The Go sources are shallowly embedded as pure Lean functions:

* secrets (corev1.Secret) become a structure of association lists
  (Go maps with string keys; a missing key reads as the zero value);
* the Kubernetes client becomes an explicit store state (a list of
  secrets keyed by name) threaded through every operation, with
  injected per-name failure lists so that error paths of the client
  (Get / Create / Update failing for non-NotFound reasons) can be
  exercised;
* each store-mutating step of the manager records an event, so that
  ordering claims about migrate / shadow-persist / unlock are theorems
  about the produced trace.
-/

deriving instance DecidableEq for Except

namespace CredMgr

/-- Go byte slices ([]byte) as lists of byte values. -/
abbrev Bytes := List Nat

/-- Go map[string][]byte as an association list (keys unique in any
map coming from Go). -/
abbrev DataMap := List (String × Bytes)

/-- Go map[string]string as an association list. -/
abbrev StrMap := List (String × String)

/-- Lookup in a data map; a missing key yields the empty byte string,
matching the Go zero value that string(m[k]) produces for a missing key. -/
def lookupD (m : DataMap) (k : String) : Bytes :=
  match m.find? (fun kv => kv.1 == k) with
  | some kv => kv.2
  | none => []

/-- Option-valued lookup in a data map (distinguishes an absent key
from a key mapped to the empty byte string). -/
def lookupOpt (m : DataMap) (k : String) : Option Bytes :=
  (m.find? (fun kv => kv.1 == k)).map (fun kv => kv.2)

/-- Lookup in a string map; a missing key yields "", matching Go map
indexing with the string zero value. -/
def lookupStr (m : StrMap) (k : String) : String :=
  match m.find? (fun kv => kv.1 == k) with
  | some kv => kv.2
  | none => ""

/-- Go map assignment m[k] = v on a string map: replace the existing
entry for k or append a new one. -/
def setStr (m : StrMap) (k v : String) : StrMap :=
  match m with
  | [] => [(k, v)]
  | (k0, v0) :: rest => if k0 == k then (k, v) :: rest else (k0, v0) :: setStr rest k v

/-- The keys of a data map. -/
def keysOf (m : DataMap) : List String := m.map (fun kv => kv.1)

/-- Embedding of corev1.Secret: the fields the repository reads or
writes (name, data, annotations, labels). -/
structure Secret where
  name : String
  data : DataMap
  annotations : StrMap
  labels : StrMap
deriving DecidableEq

/-- Errors of the object store: NotFound (matched by errors.IsNotFound
in the Go code) versus any other access failure. -/
inductive StoreErr where
  | notFound (name : String)
  | accessErr (name : String)
deriving DecidableEq

/-- The Kubernetes client state: the secrets of the namespace keyed by
name, plus injected failure lists naming the secrets whose Get /
Create / Update calls fail with a non-NotFound error, and the two
environment variables read by the hook's commonLabels. -/
structure Env where
  secrets : List Secret
  failGets : List String
  failCreates : List String
  failUpdates : List String
  sessionId : String
  applicationName : String
deriving DecidableEq

/-- Find a secret by name in the store. -/
def lookupSec (env : Env) (n : String) : Option Secret :=
  env.secrets.find? (fun s => s.name == n)

/-- client.Get: fails with an injected access error, returns NotFound
when the secret is absent, the secret itself otherwise. -/
def getSecretE (env : Env) (n : String) : Except StoreErr Secret :=
  if n ∈ env.failGets then .error (.accessErr n)
  else
    match lookupSec env n with
    | some s => .ok s
    | none => .error (.notFound n)

/-- Replace the (first) stored secret with the same name. -/
def putList (l : List Secret) (s : Secret) : List Secret :=
  match l with
  | [] => []
  | t :: rest => if t.name == s.name then s :: rest else t :: putList rest s

/-- client.Update: fails with an injected access error, NotFound when
the object is absent, otherwise replaces the stored object. -/
def updateSecretE (env : Env) (s : Secret) : Except StoreErr Env :=
  if s.name ∈ env.failUpdates then .error (.accessErr s.name)
  else if (lookupSec env s.name).isSome then
    .ok { env with secrets := putList env.secrets s }
  else .error (.notFound s.name)

/-- client.Create: fails with an injected access error, fails when an
object of that name already exists, otherwise appends the object. -/
def createSecretE (env : Env) (s : Secret) : Except StoreErr Env :=
  if s.name ∈ env.failCreates then .error (.accessErr s.name)
  else if (lookupSec env s.name).isSome then .error (.accessErr s.name)
  else .ok { env with secrets := env.secrets ++ [s] }

/-- utils.LockLabel = "locked-for-watcher" (the same constant is
redeclared as lockLabel in the manager package). -/
def lockLabel : String := "locked-for-watcher"

/-- utils.GetOldSecretName: the shadow secret is named name + "-old"
(fmt.Sprintf with the %s-old format). -/
def getOldSecretName (secretName : String) : String := secretName ++ "-old"

/-- utils.AreFieldsChanged: ranges over the fields of newSecret.Data
and reports whether any of them reads differently (as a byte string,
a missing key reading as "") from oldSecret.Data at the same key.
Keys present only in oldSecret.Data are not visited. -/
def AreFieldsChanged (oldSecret newSecret : Secret) : Bool :=
  newSecret.data.any (fun kv => !(lookupD oldSecret.data kv.1 == lookupD newSecret.data kv.1))

/-- manager.getNewSecret: a fresh Opaque secret carrying only a name
(and the namespace, which the embedding keeps implicit). -/
def getNewSecret (secretName : String) : Secret :=
  { name := secretName, data := [], annotations := [], labels := [] }

/-- The observable steps of one ActualizeCreds run, in the order they
happen: shadow creation (first run), the caller's migration callback
(with its result), the persist of the shadow with the live data, and
the unlock update of the live secret. Each event carries whether the
underlying operation succeeded. -/
inductive Ev where
  | evShadowCreate (d : DataMap) (ok : Bool)
  | evMigrate (ok : Bool)
  | evPersist (d : DataMap) (ok : Bool)
  | evUnlock (ok : Bool)
deriving DecidableEq

/-- The caller-supplied migration callback changeCredsFunc(newSecret,
oldSecret): none models a nil error, some msg a failure. The embedding
treats it as pure (its side effects are outside the store). -/
abbrev Migrate := Secret → Secret → Option String

/-- Errors returned by ActualizeCreds: a store failure or the error
returned by the migration callback. -/
inductive ActErr where
  | store (e : StoreErr)
  | mig (msg : String)
deriving DecidableEq

/-- Result of an ActualizeCreds run: the returned error value, the
store after the run, and the event trace. -/
structure ARes where
  result : Except ActErr Unit
  env : Env
  trace : List Ev
deriving DecidableEq

/-- manager.unlockSecret: re-read the live secret, set the
locked-for-watcher annotation to "false" (creating the annotation map
if absent) and update it. The event records whether the annotation
write reached the store. -/
def unlockSecretE (env : Env) (secretName : String) : Except StoreErr Env × List Ev :=
  match getSecretE env secretName with
  | .error e => (.error e, [.evUnlock false])
  | .ok s =>
    let s1 : Secret := { s with annotations := setStr s.annotations lockLabel "false" }
    match updateSecretE env s1 with
    | .error e => (.error e, [.evUnlock false])
    | .ok env1 => (.ok env1, [.evUnlock true])

/-- The body of manager.ActualizeCreds before its deferred unlock: get
the live secret, get the shadow (creating it from the live data on
NotFound), diff with AreFieldsChanged, run the migration callback on a
diff, and persist the shadow with the live data on success. -/
def actualizeBody (env : Env) (secretName : String) (mig : Migrate) : ARes :=
  match getSecretE env secretName with
  | .error e => ⟨.error (.store e), env, []⟩
  | .ok newSecret =>
    match getSecretE env (getOldSecretName secretName) with
    | .error (.notFound _) =>
      let oldSecret : Secret := { getNewSecret (getOldSecretName secretName) with data := newSecret.data }
      match createSecretE env oldSecret with
      | .error e => ⟨.error (.store e), env, [.evShadowCreate newSecret.data false]⟩
      | .ok env1 => ⟨.ok (), env1, [.evShadowCreate newSecret.data true]⟩
    | .error e => ⟨.error (.store e), env, []⟩
    | .ok oldSecret =>
      if AreFieldsChanged oldSecret newSecret then
        match mig newSecret oldSecret with
        | some msg => ⟨.error (.mig msg), env, [.evMigrate false]⟩
        | none =>
          let oldSecret1 : Secret := { oldSecret with data := newSecret.data }
          match updateSecretE env oldSecret1 with
          | .error e => ⟨.error (.store e), env, [.evMigrate true, .evPersist newSecret.data false]⟩
          | .ok env1 => ⟨.ok (), env1, [.evMigrate true, .evPersist newSecret.data true]⟩
      else ⟨.ok (), env, []⟩

/-- manager.ActualizeCreds: the body followed by the deferred unlock,
which runs exactly when the body returned a nil error and whose error
(if any) becomes the returned error. -/
def ActualizeCreds (env : Env) (secretName : String) (mig : Migrate) : ARes :=
  let r := actualizeBody env secretName mig
  match r.result with
  | .ok _ =>
    match unlockSecretE r.env secretName with
    | (.ok env1, tr) => ⟨.ok (), env1, r.trace ++ tr⟩
    | (.error e, tr) => ⟨.error (.store e), r.env, r.trace ++ tr⟩
  | .error _ => r

/-- manager.AreCredsChanged: for each name, fetch the live secret and
its shadow (propagating any fetch error) and report true as soon as
AreFieldsChanged holds for one of them. -/
def AreCredsChanged (env : Env) : List String → Except StoreErr Bool
  | [] => .ok false
  | n :: rest =>
    match getSecretE env n with
    | .error e => .error e
    | .ok newSecret =>
      match getSecretE env (getOldSecretName n) with
      | .error e => .error e
      | .ok oldSecret =>
        if AreFieldsChanged oldSecret newSecret then .ok true
        else AreCredsChanged env rest

/-- Whether a trace contains a call of the migration callback. -/
def migInvoked (tr : List Ev) : Bool :=
  tr.any (fun e => match e with | .evMigrate _ => true | _ => false)

/-- Order checker for a trace: scanning left to right with flags m
(a successful migrate has been seen) and p (a successful shadow
persist has been seen), every persist event must come after a
successful migrate and every unlock event after a successful persist. -/
def seqOK (m p : Bool) : List Ev → Bool
  | [] => true
  | .evMigrate ok :: rest => seqOK (m || ok) p rest
  | .evPersist _ ok :: rest => m && seqOK m (p || ok) rest
  | .evUnlock _ :: rest => p && seqOK m p rest
  | .evShadowCreate _ _ :: rest => seqOK m p rest

/-- informer.credsUpdFunc, as the predicate "the reconcile callback is
invoked for this (old, new) update event": skip when the new secret's
locked-for-watcher annotation reads "true", else skip when the old
secret's does (the unlock transition), else fire exactly when
AreFieldsChanged holds. A missing annotation reads as "" in Go and so
never compares equal to "true". -/
def credsUpdFunc (oldSecret newSecret : Secret) : Bool :=
  if lookupStr newSecret.annotations lockLabel == "true" then false
  else if lookupStr oldSecret.annotations lockLabel == "true" then false
  else AreFieldsChanged oldSecret newSecret

/-- A registered watcher of the informer package: the secret name and
the identity of the reconcile callback it was created with (callbacks
are opaque, so the embedding tracks them by an identifying token;
none stands for a nil function). -/
structure WatcherM where
  secretName : String
  callback : Nat
deriving DecidableEq

/-- The informer package's process-local activeWatchers map. -/
structure RegState where
  activeWatchers : List (String × WatcherM)
deriving DecidableEq

/-- Lookup in the activeWatchers map. -/
def findWatcher (st : RegState) (n : String) : Option WatcherM :=
  (st.activeWatchers.find? (fun kv => kv.1 == n)).map (fun kv => kv.2)

/-- informer.newWatcher: rejects a nil reconcile function, otherwise
builds the watcher (the subscription plumbing has no observable state
beyond the registration itself). -/
def newWatcherM (n : String) (cb : Option Nat) : Except String WatcherM :=
  match cb with
  | none => .error "no reconcile function was provided"
  | some f => .ok ⟨n, f⟩

/-- informer.Watch over a list of names: a name with an existing
watcher is skipped (logged only); otherwise a watcher is created
(failing fast, without rolling back earlier registrations, when the
callback is nil), stored, and started — the started names are the
returned event list, in order. -/
def WatchM (st : RegState) (names : List String) (cb : Option Nat) :
    Except String (RegState × List String) :=
  match names with
  | [] => .ok (st, [])
  | n :: rest =>
    match findWatcher st n with
    | some _ => WatchM st rest cb
    | none =>
      match newWatcherM n cb with
      | .error e => .error e
      | .ok w =>
        match WatchM { activeWatchers := st.activeWatchers ++ [(n, w)] } rest cb with
        | .error e => .error e
        | .ok (st1, started) => .ok (st1, n :: started)

/-- The deferred cleanup of informer.Watcher.Start: on stop the watcher
deletes its own entry from activeWatchers under the mutex. -/
def stopWatcher (st : RegState) (n : String) : RegState :=
  { activeWatchers := st.activeWatchers.filter (fun kv => !(kv.1 == n)) }

/-- The observable steps of hook.PrepareOldCreds for one secret: the
write of the shadow (with the data and labels it was given) and the
lock-annotation write on the live secret. -/
inductive PrepEv where
  | shadowWrite (n : String) (d : DataMap) (lbl : StrMap)
  | lockSet (n : String)
deriving DecidableEq

/-- hook.isSecretLocked: the locked-for-watcher annotation reads
"true". -/
def isSecretLocked (s : Secret) : Bool :=
  lookupStr s.annotations lockLabel == "true"

/-- hook.IsSecretExist: Get translating NotFound to false and success
to true, any other failure propagating. -/
def IsSecretExist (env : Env) (n : String) : Except StoreErr Bool :=
  match getSecretE env n with
  | .ok _ => .ok true
  | .error (.notFound _) => .ok false
  | .error e => .error e

/-- hook.commonLabels: the managed-by label plus the lowercased
SESSION_ID and APPLICATION_NAME environment values when non-empty. -/
def commonLabels (sessionId applicationName : String) : StrMap :=
  let l0 : StrMap := [("app.kubernetes.io/managed-by", "credential-manager")]
  let l1 : StrMap := if sessionId.toLower == "" then l0
    else l0 ++ [("deployment.netcracker.com/sessionId", sessionId.toLower)]
  if applicationName.toLower == "" then l1
  else l1 ++ [("app.kubernetes.io/part-of", applicationName.toLower)]

/-- hook.oldSecret: a fresh Opaque shadow secret carrying the shadow
name and the common labels. -/
def oldSecretInit (env : Env) (oldSecretName : String) : Secret :=
  { name := oldSecretName, data := [], annotations := [],
    labels := commonLabels env.sessionId env.applicationName }

/-- The body of hook.PrepareOldCreds for a single secret name: skip on
a NotFound live secret, panic (modelled as an error) on any other Get
failure, skip when the live secret is locked; otherwise write the
shadow (create or update, with data and labels taken from the live
secret) and then set the live secret's lock annotation to "true". -/
def prepareOneCred (env : Env) (secretName : String) :
    Except StoreErr (Env × List PrepEv) :=
  match getSecretE env secretName with
  | .error (.notFound _) => .ok (env, [])
  | .error e => .error e
  | .ok newSecret =>
    if isSecretLocked newSecret then .ok (env, [])
    else
      let oldSecretName := getOldSecretName secretName
      match IsSecretExist env oldSecretName with
      | .error e => .error e
      | .ok isExist =>
        let oldSecret : Secret :=
          { oldSecretInit env oldSecretName with data := newSecret.data, labels := newSecret.labels }
        match (if isExist then updateSecretE env oldSecret else createSecretE env oldSecret) with
        | .error e => .error e
        | .ok env1 =>
          let newSecret1 : Secret :=
            { newSecret with annotations := setStr newSecret.annotations lockLabel "true" }
          match updateSecretE env1 newSecret1 with
          | .error e => .error e
          | .ok env2 =>
            .ok (env2, [.shadowWrite oldSecretName newSecret.data newSecret.labels,
                        .lockSet secretName])

/-- hook.PrepareOldCreds: the per-name step folded over the configured
names, stopping at the first panic. -/
def PrepareOldCreds (env : Env) : List String → Except StoreErr (Env × List PrepEv)
  | [] => .ok (env, [])
  | n :: rest =>
    match prepareOneCred env n with
    | .error e => .error e
    | .ok (env1, tr1) =>
      match PrepareOldCreds env1 rest with
      | .error e => .error e
      | .ok (env2, tr2) => .ok (env2, tr1 ++ tr2)

/-! Embedding of manager.CalculateSecretDataHash / manager.hash: Go
json.Marshal of a map[string][]byte (keys serialized in sorted order,
string keys JSON-escaped with HTML escaping, byte values standard
base64), followed by crypto/sha256 and %x hex formatting. -/

/-- Big-endian byte decomposition: the k least significant bytes of n,
most significant first. -/
def toBytesBE : Nat → Nat → List Nat
  | 0, _ => []
  | k + 1, n => toBytesBE k (n >>> 8) ++ [n % 256]

/-- 32-bit right rotation. -/
def rotr32 (r x : Nat) : Nat := ((x >>> r) ||| (x <<< (32 - r))) % 4294967296

/-- The eight working variables of the SHA-256 compression loop. -/
structure W8 where
  a : Nat
  b : Nat
  c : Nat
  d : Nat
  e : Nat
  f : Nat
  g : Nat
  h : Nat
deriving DecidableEq

/-- The eight hash words of a SHA-256 state. -/
structure H8 where
  h0 : Nat
  h1 : Nat
  h2 : Nat
  h3 : Nat
  h4 : Nat
  h5 : Nat
  h6 : Nat
  h7 : Nat
deriving DecidableEq

/-- SHA-256 initial hash value (FIPS 180-4). -/
def shaInitH : H8 :=
  ⟨1779033703, 3144134277, 1013904242, 2773480762,
   1359893119, 2600822924, 528734635, 1541459225⟩

/-- SHA-256 round constants (FIPS 180-4). -/
def shaK : List Nat :=
  [1116352408, 1899447441, 3049323471, 3921009573, 961987163, 1508970993,
   2453635748, 2870763221, 3624381080, 310598401, 607225278, 1426881987,
   1925078388, 2162078206, 2614888103, 3248222580, 3835390401, 4022224774,
   264347078, 604807628, 770255983, 1249150122, 1555081692, 1996064986,
   2554220882, 2821834349, 2952996808, 3210313671, 3336571891, 3584528711,
   113926993, 338241895, 666307205, 773529912, 1294757372, 1396182291,
   1695183700, 1986661051, 2177026350, 2456956037, 2730485921, 2820302411,
   3259730800, 3345764771, 3516065817, 3600352804, 4094571909, 275423344,
   430227734, 506948616, 659060556, 883997877, 958139571, 1322822218,
   1537002063, 1747873779, 1955562222, 2024104815, 2227730452, 2361852424,
   2428436474, 2756734187, 3204031479, 3329325298]

/-- SHA-256 padding: append 0x80, zero bytes to 56 mod 64, then the
bit length as eight big-endian bytes. -/
def shaPad (msg : List Nat) : List Nat :=
  let padZeros := (119 - msg.length % 64) % 64
  msg ++ [128] ++ List.replicate padZeros 0 ++ toBytesBE 8 (8 * msg.length)

/-- Group bytes into big-endian 32-bit words. -/
def bytesToWords : List Nat → List Nat
  | b0 :: b1 :: b2 :: b3 :: rest =>
    (((b0 <<< 8 ||| b1) <<< 8 ||| b2) <<< 8 ||| b3) :: bytesToWords rest
  | _ => []

/-- Split a word list into 16-word blocks. -/
def chunks16 : List Nat → List (List Nat)
  | [] => []
  | w :: rest => (w :: rest.take 15) :: chunks16 (rest.drop 15)
termination_by l => l.length
decreasing_by
  simp only [List.length_drop, List.length_cons]
  omega

/-- Message-schedule extension: append the next word sigma1(w[t-2]) +
w[t-7] + sigma0(w[t-15]) + w[t-16] mod 2^32, n times. -/
def extendSchedule : Nat → List Nat → List Nat
  | 0, w => w
  | n + 1, w =>
    let t := w.length
    let s0 := rotr32 7 (w.getD (t - 15) 0) ^^^ rotr32 18 (w.getD (t - 15) 0) ^^^ (w.getD (t - 15) 0 >>> 3)
    let s1 := rotr32 17 (w.getD (t - 2) 0) ^^^ rotr32 19 (w.getD (t - 2) 0) ^^^ (w.getD (t - 2) 0 >>> 10)
    extendSchedule n (w ++ [(w.getD (t - 16) 0 + s0 + w.getD (t - 7) 0 + s1) % 4294967296])

/-- One SHA-256 round on the working variables with round constant k
and schedule word w. -/
def shaRound (x : W8) (k w : Nat) : W8 :=
  let s1 := rotr32 6 x.e ^^^ rotr32 11 x.e ^^^ rotr32 25 x.e
  let ch := (x.e &&& x.f) ^^^ ((x.e ^^^ 4294967295) &&& x.g)
  let t1 := (x.h + s1 + ch + k + w) % 4294967296
  let s0 := rotr32 2 x.a ^^^ rotr32 13 x.a ^^^ rotr32 22 x.a
  let maj := (x.a &&& x.b) ^^^ (x.a &&& x.c) ^^^ (x.b &&& x.c)
  let t2 := (s0 + maj) % 4294967296
  ⟨(t1 + t2) % 4294967296, x.a, x.b, x.c, (x.d + t1) % 4294967296, x.e, x.f, x.g⟩

/-- The 64 rounds, consuming the constants and the schedule in step. -/
def shaRounds : List Nat → List Nat → W8 → W8
  | k :: ks, w :: ws, x => shaRounds ks ws (shaRound x k w)
  | _, _, x => x

/-- Compress one 16-word block into the running hash state. -/
def shaCompress (st : H8) (block : List Nat) : H8 :=
  let w := extendSchedule 48 block
  let x := shaRounds shaK w ⟨st.h0, st.h1, st.h2, st.h3, st.h4, st.h5, st.h6, st.h7⟩
  ⟨(st.h0 + x.a) % 4294967296, (st.h1 + x.b) % 4294967296,
   (st.h2 + x.c) % 4294967296, (st.h3 + x.d) % 4294967296,
   (st.h4 + x.e) % 4294967296, (st.h5 + x.f) % 4294967296,
   (st.h6 + x.g) % 4294967296, (st.h7 + x.h) % 4294967296⟩

/-- SHA-256 of a byte sequence, as the final eight hash words. -/
def sha256Digest (msg : List Nat) : H8 :=
  (chunks16 (bytesToWords (shaPad msg))).foldl shaCompress shaInitH

/-- The 32 digest bytes of a SHA-256 state. -/
def h8Bytes (st : H8) : List Nat :=
  toBytesBE 4 st.h0 ++ toBytesBE 4 st.h1 ++ toBytesBE 4 st.h2 ++ toBytesBE 4 st.h3 ++
  toBytesBE 4 st.h4 ++ toBytesBE 4 st.h5 ++ toBytesBE 4 st.h6 ++ toBytesBE 4 st.h7

/-- Lowercase hex digit. -/
def hexDigit (n : Nat) : Char :=
  if n < 10 then Char.ofNat (48 + n) else Char.ofNat (87 + n)

/-- One byte as two lowercase hex digits (Go %x formatting). -/
def byteHex (b : Nat) : List Char := [hexDigit (b / 16 % 16), hexDigit (b % 16)]

/-- Byte sequence as a lowercase hex string (Go fmt.Sprintf %x). -/
def hexString (bs : List Nat) : String := ⟨bs.flatMap byteHex⟩

/-- Standard base64 alphabet. -/
def base64Char (n : Nat) : Char :=
  if n < 26 then Char.ofNat (65 + n)
  else if n < 52 then Char.ofNat (97 + (n - 26))
  else if n < 62 then Char.ofNat (48 + (n - 52))
  else if n == 62 then '+' else '/'

/-- Standard base64 with padding (encoding/base64 StdEncoding, used by
encoding/json for []byte values). -/
def base64Encode : List Nat → List Char
  | b0 :: b1 :: b2 :: rest =>
    base64Char (b0 >>> 2) :: base64Char ((b0 % 4) <<< 4 ||| (b1 >>> 4)) ::
    base64Char ((b1 % 16) <<< 2 ||| (b2 >>> 6)) :: base64Char (b2 % 64) :: base64Encode rest
  | [b0, b1] =>
    [base64Char (b0 >>> 2), base64Char ((b0 % 4) <<< 4 ||| (b1 >>> 4)),
     base64Char ((b1 % 16) <<< 2), '=']
  | [b0] => [base64Char (b0 >>> 2), base64Char ((b0 % 4) <<< 4), '=', '=']
  | [] => []

/-- Four uppercase-free hex digits of a code point (Go \uXXXX escapes
use lowercase hex). -/
def hex4 (n : Nat) : List Char :=
  [hexDigit (n / 4096 % 16), hexDigit (n / 256 % 16), hexDigit (n / 16 % 16), hexDigit (n % 16)]

/-- encoding/json string escaping with the default HTML escaping:
quote, backslash, newline, carriage return and tab get two-character
escapes; other control characters and the HTML-sensitive characters
get \u escapes, as do U+2028 and U+2029; everything else is literal. -/
def jsonEscapeChar (c : Char) : List Char :=
  if c == '"' then ['\\', '"']
  else if c == '\\' then ['\\', '\\']
  else if c == '\n' then ['\\', 'n']
  else if c == '\r' then ['\\', 'r']
  else if c == '\t' then ['\\', 't']
  else if c.toNat < 32 || c == '<' || c == '>' || c == '&' then '\\' :: 'u' :: hex4 c.toNat
  else if c.toNat == 8232 || c.toNat == 8233 then '\\' :: 'u' :: hex4 c.toNat
  else [c]

/-- UTF-8 encoding of one code point. -/
def utf8EncodeNat (n : Nat) : List Nat :=
  if n < 128 then [n]
  else if n < 2048 then [192 ||| (n >>> 6), 128 ||| (n % 64)]
  else if n < 65536 then [224 ||| (n >>> 12), 128 ||| ((n >>> 6) % 64), 128 ||| (n % 64)]
  else [240 ||| (n >>> 18), 128 ||| ((n >>> 12) % 64), 128 ||| ((n >>> 6) % 64), 128 ||| (n % 64)]

/-- UTF-8 bytes of a string. -/
def strBytes (s : String) : List Nat :=
  s.data.flatMap (fun c => utf8EncodeNat c.toNat)

/-- One serialized map entry: the escaped, quoted key, a colon, and
the quoted base64 of the value. -/
def entryJson (kv : String × Bytes) : List Char :=
  '"' :: kv.1.data.flatMap jsonEscapeChar ++ '"' :: ':' :: '"' :: base64Encode kv.2 ++ ['"']

/-- Comma-join. -/
def joinComma : List (List Char) → List Char
  | [] => []
  | [x] => x
  | x :: y :: rest => x ++ ',' :: joinComma (y :: rest)

/-- The canonical entry order used by encoding/json: keys sorted
lexicographically. -/
def sortData (d : DataMap) : DataMap :=
  d.mergeSort (fun x y => x.1 ≤ y.1)

/-- encoding/json marshalling of a map[string][]byte: entries in
sorted key order inside braces. -/
def serializeSecretData (d : DataMap) : String :=
  ⟨'{' :: joinComma ((sortData d).map entryJson) ++ ['}']⟩

/-- manager.hash applied to a secret's data as in
manager.CalculateSecretDataHash: the lowercase hex SHA-256 digest of
the canonical JSON serialization. -/
def hashData (d : DataMap) : String :=
  hexString (h8Bytes (sha256Digest (strBytes (serializeSecretData d))))

/-! Helper definitions shared by the claims. -/

/-- Decidable equality of two data maps as mappings in the byte-string
reading (a missing key reads as the empty byte string), checked on the
keys of both maps. -/
def dataEqB (d1 d2 : DataMap) : Bool :=
  (keysOf d1 ++ keysOf d2).all (fun k => lookupD d1 k == lookupD d2 k)

/-- Decidable equality of two data maps as strict mappings (same keys,
same values), checked on the keys of both maps. -/
def dataEqOptB (d1 d2 : DataMap) : Bool :=
  (keysOf d1 ++ keysOf d2).all (fun k => lookupOpt d1 k == lookupOpt d2 k)

/-- All Get calls made by AreCredsChanged on these names succeed. -/
def getsOk (env : Env) (names : List String) : Bool :=
  names.all (fun n => (getSecretE env n).isOk && (getSecretE env (getOldSecretName n)).isOk)

/-- No injected store faults. -/
def noFaults (env : Env) : Prop :=
  env.failGets = [] ∧ env.failCreates = [] ∧ env.failUpdates = []

/-- Modelled from the spec: the change predicate in the spec's words —
"compare previous.data and current.data field-by-field; if any
field's value differs", a field "present in one map and absent from
the other" counting as a difference. Used only as the refinement
comparison target for the claim about AreFieldsChanged. -/
def specFieldDiffers (d1 d2 : DataMap) : Bool :=
  (keysOf d1 ++ keysOf d2).any (fun k => !(lookupOpt d1 k == lookupOpt d2 k))

/-! Witness fixtures: a concrete store with one live secret and its
shadow, differing in the password field. -/

/-- A live secret with data password = "p1". -/
def secLive : Secret :=
  { name := "s", data := [("password", [112, 49])], annotations := [], labels := [] }

/-- A locked live secret with the same data. -/
def secLiveLocked : Secret :=
  { name := "s", data := [("password", [112, 49])], annotations := [(lockLabel, "true")],
    labels := [] }

/-- The shadow of secLive holding the previous password "p2", still
flagged as locked. -/
def secShadow : Secret :=
  { name := "s-old", data := [("password", [112, 50])], annotations := [], labels := [] }

/-- A store holding the live secret and a differing shadow, no faults. -/
def envBoth : Env :=
  { secrets := [secLive, secShadow], failGets := [], failCreates := [], failUpdates := [],
    sessionId := "", applicationName := "" }

/-- A store holding only the live secret, no faults. -/
def envLiveOnly : Env :=
  { secrets := [secLive], failGets := [], failCreates := [], failUpdates := [],
    sessionId := "", applicationName := "" }

/-- A store where the update of the shadow secret fails. -/
def envShadowUpdFails : Env :=
  { secrets := [secLive, secShadow], failGets := [], failCreates := [],
    failUpdates := ["s-old"], sessionId := "", applicationName := "" }

/-- A migration callback that always succeeds. -/
def migOK : Migrate := fun _ _ => none

/-- A migration callback that always fails. -/
def migFail : Migrate := fun _ _ => some "migration failed"

/-- A shadow holding the same data as the locked live secret. -/
def secShadowSame : Secret :=
  { name := "s-old", data := [("password", [112, 49])], annotations := [], labels := [] }

/-- A store where live and shadow data agree but the live secret still
carries a stale lock annotation. -/
def envSame : Env :=
  { secrets := [secLiveLocked, secShadowSame], failGets := [], failCreates := [],
    failUpdates := [], sessionId := "", applicationName := "" }

/-- The live secret with its locked-for-watcher annotation written to
"false", as produced by manager.unlockSecret. -/
def unlockedSecret (live : Secret) : Secret :=
  { live with annotations := setStr live.annotations lockLabel "false" }

/-- The store after manager.unlockSecret rewrote the live secret. -/
def unlockedEnv (env : Env) (live : Secret) : Env :=
  { env with secrets := putList env.secrets (unlockedSecret live) }

/-- The shadow secret seeded on a first actualization: a fresh secret
named name-old carrying the live secret's data. -/
def seededShadow (n : String) (live : Secret) : Secret :=
  { getNewSecret (getOldSecretName n) with data := live.data }

/-- The store after the first-run shadow creation. -/
def seededEnv (env : Env) (n : String) (live : Secret) : Env :=
  { env with secrets := env.secrets ++ [seededShadow n live] }

/-- The shadow secret the hook writes: a fresh secret with the common
labels, whose data and labels are then overwritten from the live
secret (so the common labels never survive). -/
def lockShadow (env : Env) (n : String) (live : Secret) : Secret :=
  { oldSecretInit env (getOldSecretName n) with data := live.data, labels := live.labels }

/-- The live secret with its locked-for-watcher annotation written to
"true", as produced by the hook's lock step. -/
def lockedLive (live : Secret) : Secret :=
  { live with annotations := setStr live.annotations lockLabel "true" }

/-- The store after the hook created the shadow (shadow was absent). -/
def lockShadowEnvC (env : Env) (n : String) (live : Secret) : Env :=
  { env with secrets := env.secrets ++ [lockShadow env n live] }

/-- The store after the hook updated the existing shadow. -/
def lockShadowEnvU (env : Env) (n : String) (live : Secret) : Env :=
  { env with secrets := putList env.secrets (lockShadow env n live) }

/-- The store after the create-path shadow write and the live lock. -/
def lockFinalEnvC (env : Env) (n : String) (live : Secret) : Env :=
  { lockShadowEnvC env n live with
    secrets := putList (lockShadowEnvC env n live).secrets (lockedLive live) }

/-- The store after the update-path shadow write and the live lock. -/
def lockFinalEnvU (env : Env) (n : String) (live : Secret) : Env :=
  { lockShadowEnvU env n live with
    secrets := putList (lockShadowEnvU env n live).secrets (lockedLive live) }

/-- A store holding only the locked live secret. -/
def envLockedLive : Env :=
  { secrets := [secLiveLocked], failGets := [], failCreates := [], failUpdates := [],
    sessionId := "", applicationName := "" }

/-- All eight words of a SHA-256 state are below 2^32. -/
def H8.bounded (st : H8) : Prop :=
  st.h0 < 4294967296 ∧ st.h1 < 4294967296 ∧ st.h2 < 4294967296 ∧ st.h3 < 4294967296 ∧
  st.h4 < 4294967296 ∧ st.h5 < 4294967296 ∧ st.h6 < 4294967296 ∧ st.h7 < 4294967296

/-- The eight digest words packed into a finite codomain (each word
reduced mod 2^32, which is the identity on digest outputs). -/
def digestCode (st : H8) :
    Fin 4294967296 × Fin 4294967296 × Fin 4294967296 × Fin 4294967296 ×
    Fin 4294967296 × Fin 4294967296 × Fin 4294967296 × Fin 4294967296 :=
  (⟨st.h0 % 4294967296, Nat.mod_lt _ (by norm_num)⟩,
   ⟨st.h1 % 4294967296, Nat.mod_lt _ (by norm_num)⟩,
   ⟨st.h2 % 4294967296, Nat.mod_lt _ (by norm_num)⟩,
   ⟨st.h3 % 4294967296, Nat.mod_lt _ (by norm_num)⟩,
   ⟨st.h4 % 4294967296, Nat.mod_lt _ (by norm_num)⟩,
   ⟨st.h5 % 4294967296, Nat.mod_lt _ (by norm_num)⟩,
   ⟨st.h6 % 4294967296, Nat.mod_lt _ (by norm_num)⟩,
   ⟨st.h7 % 4294967296, Nat.mod_lt _ (by norm_num)⟩)

/-- An infinite family of pairwise-different data maps: the field "a"
mapped to n zero bytes. -/
def mFam (n : Nat) : DataMap := [("a", List.replicate n 0)]

/-! Helper lemmas. -/

lemma find?_setStr_self (m : StrMap) (k v : String) :
    (setStr m k v).find? (fun kv => kv.1 == k) = some (k, v) := by
  induction m with
  | nil => simp [setStr]
  | cons kv0 rest ih =>
    obtain ⟨k0, v0⟩ := kv0
    by_cases h : k0 = k
    · simp [setStr, h]
    · simp [setStr, h, List.find?, ih]

lemma lookupStr_setStr_self (m : StrMap) (k v : String) :
    lookupStr (setStr m k v) k = v := by
  simp [lookupStr, find?_setStr_self]

lemma name_of_lookupSec {env : Env} {n : String} {s : Secret}
    (h : lookupSec env n = some s) : s.name = n := by
  have h1 := List.find?_some h
  simpa using h1

lemma find?_putList_ne {l : List Secret} {s : Secret} {n : String} (h : s.name ≠ n) :
    (putList l s).find? (fun t => t.name == n) = l.find? (fun t => t.name == n) := by
  induction l with
  | nil => simp [putList]
  | cons t rest ih =>
    simp only [putList]
    by_cases ht : t.name = s.name
    · rw [if_pos (by simpa using ht)]
      have h1 : (s.name == n) = false := by simpa using h
      have h2 : (t.name == n) = false := by rw [ht]; exact h1
      simp [List.find?, h1, h2]
    · rw [if_neg (by simpa using ht)]
      by_cases htn : t.name = n
      · simp [List.find?, htn]
      · have h2 : (t.name == n) = false := by simpa using htn
        simp [List.find?, h2, ih]

lemma find?_putList_self {l : List Secret} {s : Secret}
    (h : (l.find? (fun t => t.name == s.name)).isSome) :
    (putList l s).find? (fun t => t.name == s.name) = some s := by
  induction l with
  | nil => simp at h
  | cons t rest ih =>
    simp only [putList]
    by_cases ht : t.name = s.name
    · rw [if_pos (by simpa using ht)]
      simp [List.find?]
    · rw [if_neg (by simpa using ht)]
      have h2 : (t.name == s.name) = false := by simpa using ht
      simp only [List.find?, h2] at h ⊢
      exact ih h

lemma getOldSecretName_ne (n : String) : getOldSecretName n ≠ n := by
  intro h
  have h4 : "-old".length = 4 := by decide
  have hl : (getOldSecretName n).length = n.length + 4 := by
    rw [getOldSecretName, String.length_append, h4]
  rw [h] at hl
  omega

lemma lookupD_eq_nil_of_not_mem {d : DataMap} {k : String} (h : k ∉ keysOf d) :
    lookupD d k = [] := by
  have : d.find? (fun kv => kv.1 == k) = none := by
    rw [List.find?_eq_none]
    intro kv hkv
    simp only [beq_iff_eq]
    intro hk
    exact h (hk ▸ List.mem_map_of_mem (fun kv => kv.1) hkv)
  simp [lookupD, this]

lemma lookupOpt_eq_none_of_not_mem {d : DataMap} {k : String} (h : k ∉ keysOf d) :
    lookupOpt d k = none := by
  have : d.find? (fun kv => kv.1 == k) = none := by
    rw [List.find?_eq_none]
    intro kv hkv
    simp only [beq_iff_eq]
    intro hk
    exact h (hk ▸ List.mem_map_of_mem (fun kv => kv.1) hkv)
  simp [lookupOpt, this]

lemma dataEqB_lookupD {d1 d2 : DataMap} (h : dataEqB d1 d2 = true) :
    ∀ k, lookupD d1 k = lookupD d2 k := by
  intro k
  by_cases hk : k ∈ keysOf d1 ++ keysOf d2
  · have := List.all_eq_true.mp h k hk
    simpa using this
  · rw [List.mem_append] at hk
    push_neg at hk
    rw [lookupD_eq_nil_of_not_mem hk.1, lookupD_eq_nil_of_not_mem hk.2]

lemma dataEqOptB_lookupOpt {d1 d2 : DataMap} (h : dataEqOptB d1 d2 = true) :
    ∀ k, lookupOpt d1 k = lookupOpt d2 k := by
  intro k
  by_cases hk : k ∈ keysOf d1 ++ keysOf d2
  · have := List.all_eq_true.mp h k hk
    simpa using this
  · rw [List.mem_append] at hk
    push_neg at hk
    rw [lookupOpt_eq_none_of_not_mem hk.1, lookupOpt_eq_none_of_not_mem hk.2]

lemma areFieldsChanged_false_of_eq {oldS newS : Secret}
    (h : ∀ k, lookupD oldS.data k = lookupD newS.data k) :
    AreFieldsChanged oldS newS = false := by
  rw [AreFieldsChanged, List.any_eq_false]
  intro kv _
  simp [h kv.1]

lemma areFieldsChanged_iff (oldS newS : Secret) :
    AreFieldsChanged oldS newS = true ↔
      ∃ k ∈ keysOf newS.data, lookupD oldS.data k ≠ lookupD newS.data k := by
  rw [AreFieldsChanged, List.any_eq_true]
  constructor
  · rintro ⟨kv, hmem, hne⟩
    exact ⟨kv.1, List.mem_map_of_mem (fun kv => kv.1) hmem, by simpa using hne⟩
  · rintro ⟨k, hmem, hne⟩
    obtain ⟨kv, hkv, rfl⟩ := List.mem_map.mp hmem
    exact ⟨kv, hkv, by simpa using hne⟩

lemma findWatcher_stop (st : RegState) (A : String) :
    findWatcher (stopWatcher st A) A = none := by
  have h : (stopWatcher st A).activeWatchers.find? (fun kv => kv.1 == A) = none := by
    rw [List.find?_eq_none]
    intro kv hkv
    have := List.of_mem_filter hkv
    simpa using this
  simp [findWatcher, h]

/-- C3: for every update event carrying (previous, current) secret
snapshots, the reconcile callback is not invoked when the current
secret's locked-for-watcher annotation reads "true", nor when the
previous secret's does (the unlock transition), whatever the data; and
when neither reads "true" (in particular when the annotation is
missing, which reads as ""), the callback is invoked exactly when the
data changed. -/
theorem watcher_lock_suppression :
    (∀ oldS newS : Secret, lookupStr newS.annotations lockLabel = "true" →
      credsUpdFunc oldS newS = false) ∧
    (∀ oldS newS : Secret, lookupStr oldS.annotations lockLabel = "true" →
      credsUpdFunc oldS newS = false) ∧
    (∀ oldS newS : Secret, lookupStr newS.annotations lockLabel ≠ "true" →
      lookupStr oldS.annotations lockLabel ≠ "true" →
      credsUpdFunc oldS newS = AreFieldsChanged oldS newS) := by
  refine ⟨?_, ?_, ?_⟩
  · intro oldS newS h1
    simp [credsUpdFunc, h1]
  · intro oldS newS h1
    by_cases h2 : lookupStr newS.annotations lockLabel = "true" <;>
      simp [credsUpdFunc, h1, h2]
  · intro oldS newS h1 h2
    simp [credsUpdFunc, h1, h2]

/-- Witness for C3 at concrete events: a locked current secret and a
locked previous secret both suppress, and an unlocked pair falls
through to the data comparison. -/
theorem watcher_lock_suppression_witness :
    credsUpdFunc secLive secLiveLocked = false ∧
    credsUpdFunc secLiveLocked secLive = false ∧
    credsUpdFunc secShadow secLive = AreFieldsChanged secShadow secLive :=
  ⟨watcher_lock_suppression.1 secLive secLiveLocked (by decide),
   watcher_lock_suppression.2.1 secLiveLocked secLive (by decide),
   watcher_lock_suppression.2.2 secShadow secLive (by decide) (by decide)⟩

/-- C8: registration is idempotent and keeps at most one watcher per
name: a call for an already-registered name returns success, starts
nothing and leaves the registry (hence the stored callback) unchanged;
a call for an unregistered name stores and starts exactly one watcher
with the supplied callback; and after a stop has removed the
registration, a fresh call for the name registers a new watcher. -/
theorem watch_registration_idempotent :
    (∀ (st : RegState) (A : String) (cb : Option Nat) (w : WatcherM),
      findWatcher st A = some w → WatchM st [A] cb = .ok (st, [])) ∧
    (∀ (st : RegState) (A : String) (f : Nat),
      findWatcher st A = none →
      WatchM st [A] (some f) = .ok (⟨st.activeWatchers ++ [(A, ⟨A, f⟩)]⟩, [A])) ∧
    (∀ (st : RegState) (A : String) (g : Nat),
      WatchM (stopWatcher st A) [A] (some g) =
        .ok (⟨(stopWatcher st A).activeWatchers ++ [(A, ⟨A, g⟩)]⟩, [A])) := by
  refine ⟨?_, ?_, ?_⟩
  · intro st A cb w h
    simp [WatchM, h]
  · intro st A f h
    simp [WatchM, h, newWatcherM]
  · intro st A g
    simp [WatchM, findWatcher_stop, newWatcherM]

/-- Witness for C8 at a concrete registry: with watcher 7 registered
for "s", re-registering "s" with callback 9 is a no-op success;
starting from the empty registry, registering "s" stores callback 9;
and after stopping "s", re-registering stores callback 9 again. -/
theorem watch_registration_idempotent_witness :
    WatchM ⟨[("s", ⟨"s", 7⟩)]⟩ ["s"] (some 9) = .ok (⟨[("s", ⟨"s", 7⟩)]⟩, []) ∧
    WatchM ⟨[]⟩ ["s"] (some 9) = .ok (⟨[("s", ⟨"s", 9⟩)]⟩, ["s"]) ∧
    WatchM (stopWatcher ⟨[("s", ⟨"s", 7⟩)]⟩ "s") ["s"] (some 9) =
      .ok (⟨(stopWatcher ⟨[("s", ⟨"s", 7⟩)]⟩ "s").activeWatchers ++ [("s", ⟨"s", 9⟩)]⟩, ["s"]) :=
  ⟨watch_registration_idempotent.1 ⟨[("s", ⟨"s", 7⟩)]⟩ "s" (some 9) ⟨"s", 7⟩ (by decide),
   watch_registration_idempotent.2.1 ⟨[]⟩ "s" 9 (by decide),
   watch_registration_idempotent.2.2 ⟨[("s", ⟨"s", 7⟩)]⟩ "s" 9⟩

lemma getSecretE_of_lookup {env : Env} {n : String} {s : Secret}
    (hg : env.failGets = []) (h : lookupSec env n = some s) :
    getSecretE env n = .ok s := by
  simp [getSecretE, hg, h]

lemma getSecretE_of_none {env : Env} {n : String}
    (hg : env.failGets = []) (h : lookupSec env n = none) :
    getSecretE env n = .error (.notFound n) := by
  simp [getSecretE, hg, h]

lemma unlockSecretE_cases (env : Env) (n : String) :
    (∃ e, unlockSecretE env n = (.error e, [Ev.evUnlock false])) ∨
    (∃ env2, unlockSecretE env n = (.ok env2, [Ev.evUnlock true])) := by
  cases h1 : getSecretE env n with
  | error e => exact .inl ⟨e, by simp [unlockSecretE, h1]⟩
  | ok s =>
    cases h2 : updateSecretE env { s with annotations := setStr s.annotations lockLabel "false" } with
    | error e => exact .inl ⟨e, by simp [unlockSecretE, h1, h2]⟩
    | ok env2 => exact .inr ⟨env2, by simp [unlockSecretE, h1, h2]⟩

/-- C2: if the migration callback fails, ActualizeCreds returns that
error, the store (hence the shadow's data and the live secret's lock
annotation) is left untouched, and a subsequent run on the same store
invokes the migration callback again, whatever callback it is given. -/
theorem actualize_failed_migration :
    ∀ (env : Env) (n : String) (mig : Migrate) (live shadow : Secret) (msg : String),
      env.failGets = [] →
      lookupSec env n = some live →
      lookupSec env (getOldSecretName n) = some shadow →
      AreFieldsChanged shadow live = true →
      mig live shadow = some msg →
      (ActualizeCreds env n mig).result = .error (.mig msg) ∧
      (ActualizeCreds env n mig).env = env ∧
      ∀ mig2 : Migrate, migInvoked (ActualizeCreds env n mig2).trace = true := by
  intro env n mig live shadow msg hg hl hs hch hm
  have h1 : getSecretE env n = .ok live := getSecretE_of_lookup hg hl
  have h2 : getSecretE env (getOldSecretName n) = .ok shadow := getSecretE_of_lookup hg hs
  have hbody : actualizeBody env n mig = ⟨.error (.mig msg), env, [.evMigrate false]⟩ := by
    simp [actualizeBody, h1, h2, hch, hm]
  refine ⟨by simp [ActualizeCreds, hbody], by simp [ActualizeCreds, hbody], ?_⟩
  intro mig2
  cases hm2 : mig2 live shadow with
  | some m2 =>
    have hbody2 : actualizeBody env n mig2 = ⟨.error (.mig m2), env, [.evMigrate false]⟩ := by
      simp [actualizeBody, h1, h2, hch, hm2]
    simp [ActualizeCreds, hbody2, migInvoked]
  | none =>
    cases hu : updateSecretE env { shadow with data := live.data } with
    | error e =>
      have hbody2 : actualizeBody env n mig2 =
          ⟨.error (.store e), env, [.evMigrate true, .evPersist live.data false]⟩ := by
        simp [actualizeBody, h1, h2, hch, hm2, hu]
      simp [ActualizeCreds, hbody2, migInvoked]
    | ok env1 =>
      have hbody2 : actualizeBody env n mig2 =
          ⟨.ok (), env1, [.evMigrate true, .evPersist live.data true]⟩ := by
        simp [actualizeBody, h1, h2, hch, hm2, hu]
      rcases unlockSecretE_cases env1 n with ⟨e, hu2⟩ | ⟨env2, hu2⟩ <;>
        simp [ActualizeCreds, hbody2, hu2, migInvoked]

/-- Witness for C2: on the concrete store envBoth with the failing
migration callback, the error comes back, the store is unchanged, and
a rerun calls the callback again. -/
theorem actualize_failed_migration_witness :
    (ActualizeCreds envBoth "s" migFail).result = .error (.mig "migration failed") ∧
    (ActualizeCreds envBoth "s" migFail).env = envBoth ∧
    ∀ mig2 : Migrate, migInvoked (ActualizeCreds envBoth "s" mig2).trace = true :=
  actualize_failed_migration envBoth "s" migFail secLive secShadow "migration failed"
    (by decide) (by decide) (by decide) (by decide) (by decide)

/-- C10: if the migration callback succeeds but the persist of the
updated shadow fails, ActualizeCreds returns that store error, the
store is unchanged — the shadow still holds its pre-migration data
and the live secret's lock annotation is not touched (no unlock event
occurs) — even though the migration callback has already run. -/
theorem actualize_persist_failure :
    ∀ (env : Env) (n : String) (mig : Migrate) (live shadow : Secret),
      env.failGets = [] →
      lookupSec env n = some live →
      lookupSec env (getOldSecretName n) = some shadow →
      AreFieldsChanged shadow live = true →
      mig live shadow = none →
      getOldSecretName n ∈ env.failUpdates →
      (ActualizeCreds env n mig).result = .error (.store (.accessErr (getOldSecretName n))) ∧
      (ActualizeCreds env n mig).env = env ∧
      lookupSec (ActualizeCreds env n mig).env (getOldSecretName n) = some shadow ∧
      migInvoked (ActualizeCreds env n mig).trace = true ∧
      ∀ b, Ev.evUnlock b ∉ (ActualizeCreds env n mig).trace := by
  intro env n mig live shadow hg hl hs hch hm hfail
  have h1 : getSecretE env n = .ok live := getSecretE_of_lookup hg hl
  have h2 : getSecretE env (getOldSecretName n) = .ok shadow := getSecretE_of_lookup hg hs
  have hname : shadow.name = getOldSecretName n := name_of_lookupSec hs
  have hu : updateSecretE env { shadow with data := live.data } =
      .error (.accessErr (getOldSecretName n)) := by
    simp only [updateSecretE, hname]
    rw [if_pos hfail]
  have hbody : actualizeBody env n mig =
      ⟨.error (.store (.accessErr (getOldSecretName n))), env,
        [.evMigrate true, .evPersist live.data false]⟩ := by
    simp [actualizeBody, h1, h2, hch, hm, hu]
  refine ⟨by simp [ActualizeCreds, hbody], by simp [ActualizeCreds, hbody],
    by simp [ActualizeCreds, hbody, hs], by simp [ActualizeCreds, hbody, migInvoked], ?_⟩
  intro b
  simp [ActualizeCreds, hbody]

/-- Witness for C10: on the concrete store whose shadow update fails,
the access error is returned, the store keeps the old shadow, the
callback did run, and no unlock happens. -/
theorem actualize_persist_failure_witness :
    (ActualizeCreds envShadowUpdFails "s" migOK).result =
      .error (.store (.accessErr (getOldSecretName "s"))) ∧
    (ActualizeCreds envShadowUpdFails "s" migOK).env = envShadowUpdFails ∧
    lookupSec (ActualizeCreds envShadowUpdFails "s" migOK).env (getOldSecretName "s") =
      some secShadow ∧
    migInvoked (ActualizeCreds envShadowUpdFails "s" migOK).trace = true ∧
    ∀ b, Ev.evUnlock b ∉ (ActualizeCreds envShadowUpdFails "s" migOK).trace :=
  actualize_persist_failure envShadowUpdFails "s" migOK secLive secShadow
    (by decide) (by decide) (by decide) (by decide) (by decide) (by decide)

lemma lookupSec_putList_ne {env : Env} {s : Secret} {n : String} (h : s.name ≠ n) :
    lookupSec { env with secrets := putList env.secrets s } n = lookupSec env n := by
  simp only [lookupSec]
  exact find?_putList_ne h

lemma lookupSec_putList_self {env : Env} {s : Secret}
    (h : (lookupSec env s.name).isSome) :
    lookupSec { env with secrets := putList env.secrets s } s.name = some s := by
  simp only [lookupSec] at h ⊢
  exact find?_putList_self h

lemma unlockedSecret_name (live : Secret) : (unlockedSecret live).name = live.name := rfl

lemma unlockSecretE_ok {env : Env} {n : String} {live : Secret}
    (hg : env.failGets = []) (hu : env.failUpdates = [])
    (hl : lookupSec env n = some live) :
    unlockSecretE env n = (.ok (unlockedEnv env live), [Ev.evUnlock true]) := by
  have h1 : getSecretE env n = .ok live := getSecretE_of_lookup hg hl
  have hname : live.name = n := name_of_lookupSec hl
  have h2 : updateSecretE env (unlockedSecret live) = .ok (unlockedEnv env live) := by
    simp only [updateSecretE, unlockedEnv, unlockedSecret]
    rw [if_neg (by simp [hname, hu]), if_pos (by simp [hname, hl])]
  simp [unlockSecretE, h1, unlockedSecret] at h2 ⊢
  simp [h2]

/-- C5: for a live secret with no shadow, ActualizeCreds creates the
shadow with the live secret's data, never invokes the migration
callback, and returns success. -/
theorem actualize_first_run_seeds_shadow :
    ∀ (env : Env) (n : String) (mig : Migrate) (live : Secret),
      noFaults env →
      lookupSec env n = some live →
      lookupSec env (getOldSecretName n) = none →
      (ActualizeCreds env n mig).result = .ok () ∧
      (∃ s, lookupSec (ActualizeCreds env n mig).env (getOldSecretName n) = some s ∧
        s.data = live.data) ∧
      migInvoked (ActualizeCreds env n mig).trace = false := by
  intro env n mig live hnf hl hs
  obtain ⟨hg, hc, hu⟩ := hnf
  have h1 : getSecretE env n = .ok live := getSecretE_of_lookup hg hl
  have h2 : getSecretE env (getOldSecretName n) = .error (.notFound (getOldSecretName n)) :=
    getSecretE_of_none hg hs
  have hlname : live.name = n := name_of_lookupSec hl
  have hcr : createSecretE env (seededShadow n live) = .ok (seededEnv env n live) := by
    simp only [createSecretE, seededShadow, seededEnv]
    rw [if_neg (by simp [getNewSecret, hc]), if_neg (by simp [getNewSecret, hs])]
  have hbody : actualizeBody env n mig =
      ⟨.ok (), seededEnv env n live, [.evShadowCreate live.data true]⟩ := by
    simp only [actualizeBody, h1, h2]
    simp only [seededShadow] at hcr
    simp [hcr]
  have hl1 : lookupSec (seededEnv env n live) n = some live := by
    simp only [lookupSec, seededEnv, List.find?_append]
    simp only [lookupSec] at hl
    rw [hl]
    rfl
  have hun := @unlockSecretE_ok (seededEnv env n live) n live
    (by simp [seededEnv, hg]) (by simp [seededEnv, hu]) hl1
  have hfinal : ActualizeCreds env n mig =
      ⟨.ok (), unlockedEnv (seededEnv env n live) live,
        [.evShadowCreate live.data true, .evUnlock true]⟩ := by
    simp [ActualizeCreds, hbody, hun]
  refine ⟨by simp [hfinal],
    ⟨seededShadow n live, ?_, by simp [seededShadow, getNewSecret]⟩,
    by simp [hfinal, migInvoked]⟩
  rw [hfinal]
  show lookupSec (unlockedEnv (seededEnv env n live) live) (getOldSecretName n) =
    some (seededShadow n live)
  have hne : (unlockedSecret live).name ≠ getOldSecretName n := by
    rw [unlockedSecret_name, hlname]
    exact Ne.symm (getOldSecretName_ne n)
  have hput := find?_putList_ne (l := (seededEnv env n live).secrets) hne
  simp only [unlockedEnv, lookupSec]
  rw [hput]
  simp only [seededEnv, List.find?_append]
  simp only [lookupSec] at hs
  rw [hs]
  simp [List.find?, seededShadow, getNewSecret]

/-- Witness for C5: on the concrete store holding only the live
secret, the run succeeds, seeds the shadow with the live data and
never calls the callback. -/
theorem actualize_first_run_seeds_shadow_witness :
    (ActualizeCreds envLiveOnly "s" migOK).result = .ok () ∧
    (∃ s, lookupSec (ActualizeCreds envLiveOnly "s" migOK).env (getOldSecretName "s") = some s ∧
      s.data = secLive.data) ∧
    migInvoked (ActualizeCreds envLiveOnly "s" migOK).trace = false :=
  actualize_first_run_seeds_shadow envLiveOnly "s" migOK secLive
    ⟨rfl, rfl, rfl⟩ (by decide) (by decide)

/-- C6: when the live data equals the shadow data field-for-field,
ActualizeCreds never calls the migration callback and leaves the
shadow untouched, but still succeeds and writes the live secret's
locked-for-watcher annotation to "false", clearing any stale lock. -/
theorem actualize_noop_unlocks :
    ∀ (env : Env) (n : String) (mig : Migrate) (live shadow : Secret),
      noFaults env →
      lookupSec env n = some live →
      lookupSec env (getOldSecretName n) = some shadow →
      dataEqB shadow.data live.data = true →
      migInvoked (ActualizeCreds env n mig).trace = false ∧
      lookupSec (ActualizeCreds env n mig).env (getOldSecretName n) = some shadow ∧
      (ActualizeCreds env n mig).result = .ok () ∧
      ∃ live1, lookupSec (ActualizeCreds env n mig).env n = some live1 ∧
        lookupStr live1.annotations lockLabel = "false" ∧ live1.data = live.data := by
  intro env n mig live shadow hnf hl hs hdeq
  obtain ⟨hg, hc, hu⟩ := hnf
  have h1 : getSecretE env n = .ok live := getSecretE_of_lookup hg hl
  have h2 : getSecretE env (getOldSecretName n) = .ok shadow := getSecretE_of_lookup hg hs
  have hlname : live.name = n := name_of_lookupSec hl
  have hch : AreFieldsChanged shadow live = false :=
    areFieldsChanged_false_of_eq (dataEqB_lookupD hdeq)
  have hbody : actualizeBody env n mig = ⟨.ok (), env, []⟩ := by
    simp [actualizeBody, h1, h2, hch]
  have hun := unlockSecretE_ok hg hu hl
  have hfinal : ActualizeCreds env n mig =
      ⟨.ok (), unlockedEnv env live, [.evUnlock true]⟩ := by
    simp [ActualizeCreds, hbody, hun]
  refine ⟨by simp [hfinal, migInvoked], ?_, by simp [hfinal], ?_⟩
  · rw [hfinal]
    show lookupSec (unlockedEnv env live) (getOldSecretName n) = some shadow
    have hne : (unlockedSecret live).name ≠ getOldSecretName n := by
      rw [unlockedSecret_name, hlname]
      exact Ne.symm (getOldSecretName_ne n)
    simp only [unlockedEnv]
    rw [lookupSec_putList_ne hne]
    exact hs
  · refine ⟨unlockedSecret live, ?_, lookupStr_setStr_self _ _ _, rfl⟩
    rw [hfinal]
    show lookupSec (unlockedEnv env live) n = some (unlockedSecret live)
    have hsome : (lookupSec env (unlockedSecret live).name).isSome := by
      rw [unlockedSecret_name, hlname, hl]
      rfl
    have h3 := lookupSec_putList_self hsome
    rw [unlockedSecret_name, hlname] at h3
    simp only [unlockedEnv]
    exact h3

/-- Witness for C6: on the concrete store whose shadow matches the
locked live secret, no migration happens, the shadow is untouched and
the stale lock is cleared. -/
theorem actualize_noop_unlocks_witness :
    migInvoked (ActualizeCreds envSame "s" migOK).trace = false ∧
    lookupSec (ActualizeCreds envSame "s" migOK).env (getOldSecretName "s") = some secShadowSame ∧
    (ActualizeCreds envSame "s" migOK).result = .ok () ∧
    ∃ live1, lookupSec (ActualizeCreds envSame "s" migOK).env "s" = some live1 ∧
      lookupStr live1.annotations lockLabel = "false" ∧ live1.data = secLiveLocked.data :=
  actualize_noop_unlocks envSame "s" migOK secLiveLocked secShadowSame
    ⟨rfl, rfl, rfl⟩ (by decide) (by decide) (by decide)

/-- C1: in every run of ActualizeCreds that invokes the migration
callback, the trace respects the rotation order: a shadow persist
happens only after the callback has succeeded, and an unlock happens
only after the shadow persist has succeeded; moreover every persisted
shadow carries exactly the live secret's data. -/
theorem actualize_ordering :
    ∀ (env : Env) (n : String) (mig : Migrate),
      migInvoked (ActualizeCreds env n mig).trace = true →
      seqOK false false (ActualizeCreds env n mig).trace = true ∧
      ∀ d b, Ev.evPersist d b ∈ (ActualizeCreds env n mig).trace →
        ∃ live, getSecretE env n = .ok live ∧ d = live.data := by
  intro env n mig hmig
  cases h1 : getSecretE env n with
  | error e =>
    have hfin : ActualizeCreds env n mig = ⟨.error (.store e), env, []⟩ := by
      simp [ActualizeCreds, actualizeBody, h1]
    rw [hfin] at hmig
    simp [migInvoked] at hmig
  | ok newS =>
    cases h2 : getSecretE env (getOldSecretName n) with
    | error e =>
      cases e with
      | notFound m =>
        cases h3 : createSecretE env { getNewSecret (getOldSecretName n) with data := newS.data } with
        | error e2 =>
          have hfin : ActualizeCreds env n mig =
              ⟨.error (.store e2), env, [.evShadowCreate newS.data false]⟩ := by
            simp [ActualizeCreds, actualizeBody, h1, h2, h3]
          rw [hfin] at hmig
          simp [migInvoked] at hmig
        | ok env1 =>
          have hbody : actualizeBody env n mig =
              ⟨.ok (), env1, [.evShadowCreate newS.data true]⟩ := by
            simp [actualizeBody, h1, h2, h3]
          rcases unlockSecretE_cases env1 n with ⟨e3, hu3⟩ | ⟨env2, hu3⟩
          · have hfin : (ActualizeCreds env n mig).trace =
                [.evShadowCreate newS.data true, .evUnlock false] := by
              simp [ActualizeCreds, hbody, hu3]
            rw [hfin] at hmig
            simp [migInvoked] at hmig
          · have hfin : (ActualizeCreds env n mig).trace =
                [.evShadowCreate newS.data true, .evUnlock true] := by
              simp [ActualizeCreds, hbody, hu3]
            rw [hfin] at hmig
            simp [migInvoked] at hmig
      | accessErr m =>
        have hfin : ActualizeCreds env n mig = ⟨.error (.store (.accessErr m)), env, []⟩ := by
          simp [ActualizeCreds, actualizeBody, h1, h2]
        rw [hfin] at hmig
        simp [migInvoked] at hmig
    | ok oldS =>
      by_cases hch : AreFieldsChanged oldS newS = true
      · cases hm : mig newS oldS with
        | some msg =>
          have hfin : ActualizeCreds env n mig =
              ⟨.error (.mig msg), env, [.evMigrate false]⟩ := by
            simp [ActualizeCreds, actualizeBody, h1, h2, hch, hm]
          rw [hfin]
          refine ⟨by simp [seqOK], ?_⟩
          intro d b hdb
          simp at hdb
        | none =>
          cases h4 : updateSecretE env { oldS with data := newS.data } with
          | error e4 =>
            have hfin : ActualizeCreds env n mig =
                ⟨.error (.store e4), env, [.evMigrate true, .evPersist newS.data false]⟩ := by
              simp [ActualizeCreds, actualizeBody, h1, h2, hch, hm, h4]
            rw [hfin]
            refine ⟨by simp [seqOK], ?_⟩
            intro d b hdb
            simp at hdb
            exact ⟨newS, rfl, hdb.1⟩
          | ok env1 =>
            have hbody : actualizeBody env n mig =
                ⟨.ok (), env1, [.evMigrate true, .evPersist newS.data true]⟩ := by
              simp [actualizeBody, h1, h2, hch, hm, h4]
            rcases unlockSecretE_cases env1 n with ⟨e3, hu3⟩ | ⟨env2, hu3⟩
            · have hfin : (ActualizeCreds env n mig).trace =
                  [.evMigrate true, .evPersist newS.data true, .evUnlock false] := by
                simp [ActualizeCreds, hbody, hu3]
              rw [hfin]
              refine ⟨by simp [seqOK], ?_⟩
              intro d b hdb
              simp at hdb
              exact ⟨newS, rfl, hdb.1⟩
            · have hfin : (ActualizeCreds env n mig).trace =
                  [.evMigrate true, .evPersist newS.data true, .evUnlock true] := by
                simp [ActualizeCreds, hbody, hu3]
              rw [hfin]
              refine ⟨by simp [seqOK], ?_⟩
              intro d b hdb
              simp at hdb
              exact ⟨newS, rfl, hdb.1⟩
      · have hch2 : AreFieldsChanged oldS newS = false := by simpa using hch
        have hbody : actualizeBody env n mig = ⟨.ok (), env, []⟩ := by
          simp [actualizeBody, h1, h2, hch2]
        rcases unlockSecretE_cases env n with ⟨e3, hu3⟩ | ⟨env2, hu3⟩
        · have hfin : (ActualizeCreds env n mig).trace = [.evUnlock false] := by
            simp [ActualizeCreds, hbody, hu3]
          rw [hfin] at hmig
          simp [migInvoked] at hmig
        · have hfin : (ActualizeCreds env n mig).trace = [.evUnlock true] := by
            simp [ActualizeCreds, hbody, hu3]
          rw [hfin] at hmig
          simp [migInvoked] at hmig

/-- Witness for C1: the concrete run on envBoth invokes the callback
and its trace passes the order check, every persisted shadow carrying
the live data. -/
theorem actualize_ordering_witness :
    seqOK false false (ActualizeCreds envBoth "s" migOK).trace = true ∧
    ∀ d b, Ev.evPersist d b ∈ (ActualizeCreds envBoth "s" migOK).trace →
      ∃ live, getSecretE envBoth "s" = .ok live ∧ d = live.data :=
  actualize_ordering envBoth "s" migOK (by decide)

/-- C7: the pre-rotation snapshot-and-lock step treats an absent live
secret and an already-locked live secret as non-error no-ops, leaving
the store untouched; otherwise it writes the shadow with the live
secret's data and labels before setting the live secret's
locked-for-watcher annotation to "true" — the event list records the
shadow write strictly before the lock write. -/
theorem prepare_old_creds_lock_step :
    (∀ (env : Env) (n : String),
      env.failGets = [] → lookupSec env n = none →
      prepareOneCred env n = .ok (env, [])) ∧
    (∀ (env : Env) (n : String) (live : Secret),
      env.failGets = [] → lookupSec env n = some live → isSecretLocked live = true →
      prepareOneCred env n = .ok (env, [])) ∧
    (∀ (env : Env) (n : String) (live : Secret),
      noFaults env → lookupSec env n = some live → isSecretLocked live = false →
      ∃ env2, prepareOneCred env n =
          .ok (env2, [.shadowWrite (getOldSecretName n) live.data live.labels, .lockSet n]) ∧
        (∃ s, lookupSec env2 (getOldSecretName n) = some s ∧
          s.data = live.data ∧ s.labels = live.labels) ∧
        (∃ live1, lookupSec env2 n = some live1 ∧
          lookupStr live1.annotations lockLabel = "true" ∧ live1.data = live.data)) := by
  refine ⟨?_, ?_, ?_⟩
  · intro env n hg hl
    have h1 : getSecretE env n = .error (.notFound n) := getSecretE_of_none hg hl
    simp [prepareOneCred, h1]
  · intro env n live hg hl hlock
    have h1 : getSecretE env n = .ok live := getSecretE_of_lookup hg hl
    simp [prepareOneCred, h1, hlock]
  · intro env n live hnf hl hlock
    obtain ⟨hg, hc, hu⟩ := hnf
    have h1 : getSecretE env n = .ok live := getSecretE_of_lookup hg hl
    have hlname : live.name = n := name_of_lookupSec hl
    cases hex : lookupSec env (getOldSecretName n) with
    | none =>
      have hexi : IsSecretExist env (getOldSecretName n) = .ok false := by
        simp [IsSecretExist, getSecretE_of_none hg hex]
      have hcr : createSecretE env (lockShadow env n live) = .ok (lockShadowEnvC env n live) := by
        simp only [createSecretE, lockShadowEnvC, lockShadow, oldSecretInit]
        rw [if_neg (by simp [hc]), if_neg (by simp [hex])]
      have hl1 : lookupSec (lockShadowEnvC env n live) n = some live := by
        simp only [lookupSec, lockShadowEnvC, List.find?_append]
        simp only [lookupSec] at hl
        rw [hl]
        rfl
      have hupd : updateSecretE (lockShadowEnvC env n live) (lockedLive live) =
          .ok (lockFinalEnvC env n live) := by
        simp only [updateSecretE, lockFinalEnvC]
        rw [if_neg (by simp [lockedLive, hlname, lockShadowEnvC, hu]),
          if_pos (by rw [show (lockedLive live).name = n from by simp [lockedLive, hlname], hl1]; rfl)]
      refine ⟨lockFinalEnvC env n live, ?_, ⟨lockShadow env n live, ?_, rfl, rfl⟩,
        ⟨lockedLive live, ?_, lookupStr_setStr_self _ _ _, rfl⟩⟩
      · simp only [prepareOneCred, h1, hlock, hexi]
        simp only [lockShadow, oldSecretInit] at hcr
        simp only [lockedLive, hlname] at hupd
        simp [oldSecretInit, hlname, hcr, hupd]
      · have hne : (lockedLive live).name ≠ getOldSecretName n := by
          rw [show (lockedLive live).name = n from by simp [lockedLive, hlname]]
          exact Ne.symm (getOldSecretName_ne n)
        have hput := find?_putList_ne (l := (lockShadowEnvC env n live).secrets) hne
        simp only [lockFinalEnvC, lookupSec]
        rw [hput]
        simp only [lockShadowEnvC, List.find?_append]
        simp only [lookupSec] at hex
        rw [hex]
        simp [List.find?, lockShadow, oldSecretInit]
      · have hsome : (lookupSec (lockShadowEnvC env n live) (lockedLive live).name).isSome := by
          rw [show (lockedLive live).name = n from by simp [lockedLive, hlname], hl1]
          rfl
        have h3 := lookupSec_putList_self hsome
        rw [show (lockedLive live).name = n from by simp [lockedLive, hlname]] at h3
        simpa [lockFinalEnvC] using h3
    | some t =>
      have hexi : IsSecretExist env (getOldSecretName n) = .ok true := by
        simp [IsSecretExist, getSecretE_of_lookup hg hex]
      have htname : t.name = getOldSecretName n := name_of_lookupSec hex
      have hupd0 : updateSecretE env (lockShadow env n live) = .ok (lockShadowEnvU env n live) := by
        simp only [updateSecretE, lockShadowEnvU, lockShadow, oldSecretInit]
        rw [if_neg (by simp [hu]), if_pos (by simp [hex])]
      have hl1 : lookupSec (lockShadowEnvU env n live) n = some live := by
        have hne : (lockShadow env n live).name ≠ n := by
          rw [show (lockShadow env n live).name = getOldSecretName n from by
            simp [lockShadow, oldSecretInit]]
          exact getOldSecretName_ne n
        simp only [lockShadowEnvU]
        rw [lookupSec_putList_ne hne]
        exact hl
      have hupd : updateSecretE (lockShadowEnvU env n live) (lockedLive live) =
          .ok (lockFinalEnvU env n live) := by
        simp only [updateSecretE, lockFinalEnvU]
        rw [if_neg (by simp [lockedLive, hlname, lockShadowEnvU, hu]),
          if_pos (by rw [show (lockedLive live).name = n from by simp [lockedLive, hlname], hl1]; rfl)]
      refine ⟨lockFinalEnvU env n live, ?_, ⟨lockShadow env n live, ?_, rfl, rfl⟩,
        ⟨lockedLive live, ?_, lookupStr_setStr_self _ _ _, rfl⟩⟩
      · simp only [prepareOneCred, h1, hlock, hexi]
        simp only [lockShadow, oldSecretInit] at hupd0
        simp only [lockedLive, hlname] at hupd
        simp [oldSecretInit, hlname, hupd0, hupd]
      · have hne : (lockedLive live).name ≠ getOldSecretName n := by
          rw [show (lockedLive live).name = n from by simp [lockedLive, hlname]]
          exact Ne.symm (getOldSecretName_ne n)
        have hput := find?_putList_ne (l := (lockShadowEnvU env n live).secrets) hne
        simp only [lockFinalEnvU, lookupSec]
        rw [hput]
        have hsome0 : (lookupSec env (lockShadow env n live).name).isSome := by
          rw [show (lockShadow env n live).name = getOldSecretName n from by
            simp [lockShadow, oldSecretInit], hex]
          rfl
        have h3 := lookupSec_putList_self hsome0
        rw [show (lockShadow env n live).name = getOldSecretName n from by
          simp [lockShadow, oldSecretInit]] at h3
        simpa [lockShadowEnvU, lookupSec] using h3
      · have hsome : (lookupSec (lockShadowEnvU env n live) (lockedLive live).name).isSome := by
          rw [show (lockedLive live).name = n from by simp [lockedLive, hlname], hl1]
          rfl
        have h3 := lookupSec_putList_self hsome
        rw [show (lockedLive live).name = n from by simp [lockedLive, hlname]] at h3
        simpa [lockFinalEnvU] using h3

/-- Witness for C7: on concrete stores, an absent live secret and a
locked live secret are skipped unchanged, and an unlocked live secret
gets its shadow written before the lock is set. -/
theorem prepare_old_creds_lock_step_witness :
    prepareOneCred envLiveOnly "absent" = .ok (envLiveOnly, []) ∧
    prepareOneCred envLockedLive "s" = .ok (envLockedLive, []) ∧
    ∃ env2, prepareOneCred envBoth "s" =
        .ok (env2, [.shadowWrite (getOldSecretName "s") secLive.data secLive.labels,
                    .lockSet "s"]) ∧
      (∃ s, lookupSec env2 (getOldSecretName "s") = some s ∧
        s.data = secLive.data ∧ s.labels = secLive.labels) ∧
      (∃ live1, lookupSec env2 "s" = some live1 ∧
        lookupStr live1.annotations lockLabel = "true" ∧ live1.data = secLive.data) :=
  ⟨prepare_old_creds_lock_step.1 envLiveOnly "absent" rfl (by decide),
   prepare_old_creds_lock_step.2.1 envLockedLive "s" secLiveLocked rfl (by decide) (by decide),
   prepare_old_creds_lock_step.2.2 envBoth "s" secLive ⟨rfl, rfl, rfl⟩ (by decide) (by decide)⟩

/-! Digest bound lemmas for the collision argument. -/

lemma shaCompress_bounded (st : H8) (block : List Nat) : (shaCompress st block).bounded := by
  refine ⟨?_, ?_, ?_, ?_, ?_, ?_, ?_, ?_⟩ <;>
    simp only [shaCompress] <;> exact Nat.mod_lt _ (by norm_num)

lemma foldl_compress_bounded (l : List (List Nat)) (st : H8) (h : st.bounded) :
    (l.foldl shaCompress st).bounded := by
  induction l generalizing st with
  | nil => exact h
  | cons c rest ih =>
    rw [List.foldl_cons]
    exact ih _ (shaCompress_bounded st c)

lemma sha256Digest_bounded (msg : List Nat) : (sha256Digest msg).bounded := by
  unfold sha256Digest
  exact foldl_compress_bounded _ _
    ⟨by decide, by decide, by decide, by decide, by decide, by decide, by decide, by decide⟩

lemma digestCode_inj {s1 s2 : H8} (h1 : s1.bounded) (h2 : s2.bounded)
    (h : digestCode s1 = digestCode s2) : s1 = s2 := by
  obtain ⟨b0, b1, b2, b3, b4, b5, b6, b7⟩ := h1
  obtain ⟨c0, c1, c2, c3, c4, c5, c6, c7⟩ := h2
  simp only [digestCode, Prod.mk.injEq, Fin.mk.injEq] at h
  obtain ⟨e0, e1, e2, e3, e4, e5, e6, e7⟩ := h
  cases s1
  cases s2
  simp only at b0 b1 b2 b3 b4 b5 b6 b7 c0 c1 c2 c3 c4 c5 c6 c7 e0 e1 e2 e3 e4 e5 e6 e7
  simp only [H8.mk.injEq]
  refine ⟨?_, ?_, ?_, ?_, ?_, ?_, ?_, ?_⟩
  · rwa [Nat.mod_eq_of_lt b0, Nat.mod_eq_of_lt c0] at e0
  · rwa [Nat.mod_eq_of_lt b1, Nat.mod_eq_of_lt c1] at e1
  · rwa [Nat.mod_eq_of_lt b2, Nat.mod_eq_of_lt c2] at e2
  · rwa [Nat.mod_eq_of_lt b3, Nat.mod_eq_of_lt c3] at e3
  · rwa [Nat.mod_eq_of_lt b4, Nat.mod_eq_of_lt c4] at e4
  · rwa [Nat.mod_eq_of_lt b5, Nat.mod_eq_of_lt c5] at e5
  · rwa [Nat.mod_eq_of_lt b6, Nat.mod_eq_of_lt c6] at e6
  · rwa [Nat.mod_eq_of_lt b7, Nat.mod_eq_of_lt c7] at e7

lemma mFam_lookup (n : Nat) : lookupOpt (mFam n) "a" = some (List.replicate n 0) := by
  simp [mFam, lookupOpt, List.find?]

lemma hash_collision_exists :
    ∃ d1 d2 : DataMap, (∃ k, lookupOpt d1 k ≠ lookupOpt d2 k) ∧ hashData d1 = hashData d2 := by
  obtain ⟨x, y, hxy, hfeq⟩ := Finite.exists_ne_map_eq_of_infinite
    (fun n : Nat => digestCode (sha256Digest (strBytes (serializeSecretData (mFam n)))))
  refine ⟨mFam x, mFam y, ⟨"a", ?_⟩, ?_⟩
  · rw [mFam_lookup, mFam_lookup]
    intro hcontra
    apply hxy
    have hlen := congrArg List.length (Option.some.inj hcontra)
    simpa using hlen
  · have hd := digestCode_inj (sha256Digest_bounded _) (sha256Digest_bounded _) hfeq
    simp only [hashData, hd]

lemma exists_ok_of_isOk {e : Except StoreErr Secret} (h : e.isOk = true) :
    ∃ s, e = .ok s := by
  cases e with
  | error a => simp [Except.isOk, Except.toBool] at h
  | ok b => exact ⟨b, rfl⟩

/-! Canonical-order lemmas: two maps equal as mappings have the same
sorted entry list, hence the same serialization and the same hash. -/

lemma lookupOpt_cons_ne {k0 : String} {v0 : Bytes} {rest : DataMap} {k : String}
    (h : (k0 == k) = false) : lookupOpt ((k0, v0) :: rest) k = lookupOpt rest k := by
  simp [lookupOpt, List.find?, h]

lemma mem_iff_lookupOpt {d : DataMap} (hnd : (keysOf d).Nodup) (k : String) (v : Bytes) :
    (k, v) ∈ d ↔ lookupOpt d k = some v := by
  induction d with
  | nil => simp [lookupOpt]
  | cons kv rest ih =>
    obtain ⟨k0, v0⟩ := kv
    simp only [keysOf, List.map_cons, List.nodup_cons] at hnd
    obtain ⟨hnotin, hnd2⟩ := hnd
    by_cases hk : k0 = k
    · subst hk
      constructor
      · intro hmem
        rcases List.mem_cons.mp hmem with heq | hmem2
        · cases heq
          simp [lookupOpt, List.find?]
        · exact absurd (List.mem_map_of_mem (fun kv => kv.1) hmem2) hnotin
      · intro hlk
        have hv : v0 = v := by
          simpa [lookupOpt, List.find?] using hlk
        rw [List.mem_cons]
        exact .inl (by rw [hv])
    · have hkb : (k0 == k) = false := by simpa using hk
      rw [lookupOpt_cons_ne hkb, List.mem_cons, ← ih hnd2]
      constructor
      · rintro (heq | hmem)
        · cases heq
          exact absurd rfl hk
        · exact hmem
      · exact fun hmem => .inr hmem

lemma perm_of_lookupOpt_eq {d1 d2 : DataMap}
    (h1 : (keysOf d1).Nodup) (h2 : (keysOf d2).Nodup)
    (h : ∀ k, lookupOpt d1 k = lookupOpt d2 k) : d1.Perm d2 := by
  have hn1 : d1.Nodup := List.Nodup.of_map _ h1
  have hn2 : d2.Nodup := List.Nodup.of_map _ h2
  rw [List.perm_ext_iff_of_nodup hn1 hn2]
  intro a
  obtain ⟨k, v⟩ := a
  rw [mem_iff_lookupOpt h1, mem_iff_lookupOpt h2, h k]

lemma sortData_sorted_lt {d : DataMap} (hnd : (keysOf d).Nodup) :
    (sortData d).Pairwise (fun a b : String × Bytes => a.1 < b.1) := by
  simp only [keysOf] at hnd
  have hle := @List.sorted_mergeSort (String × Bytes) (fun x y => x.1 ≤ y.1)
    (fun a b c hab hbc => by
      simp only [decide_eq_true_eq] at hab hbc ⊢
      exact le_trans hab hbc)
    (fun a b => by
      simp only [Bool.or_eq_true, decide_eq_true_eq]
      exact le_total a.1 b.1) d
  have hperm : (sortData d).Perm d := List.mergeSort_perm d _
  have hndk : (List.map (fun kv : String × Bytes => kv.1) (sortData d)).Nodup :=
    ((hperm.map (fun kv => kv.1)).nodup_iff).mpr hnd
  have hne : (sortData d).Pairwise (fun a b : String × Bytes => a.1 ≠ b.1) :=
    List.pairwise_map.mp hndk
  have hle2 : (sortData d).Pairwise (fun a b : String × Bytes => a.1 ≤ b.1) := by
    refine hle.imp ?_
    intro a b hab
    simpa using hab
  exact (hle2.and hne).imp (fun hab => lt_of_le_of_ne hab.1 hab.2)

lemma sortData_eq_of_lookupOpt_eq {d1 d2 : DataMap}
    (h1 : (keysOf d1).Nodup) (h2 : (keysOf d2).Nodup)
    (h : ∀ k, lookupOpt d1 k = lookupOpt d2 k) : sortData d1 = sortData d2 := by
  have hperm : (sortData d1).Perm (sortData d2) :=
    ((List.mergeSort_perm d1 _).trans (perm_of_lookupOpt_eq h1 h2 h)).trans
      (List.mergeSort_perm d2 _).symm
  haveI : IsAntisymm (String × Bytes) (fun a b => a.1 < b.1) :=
    ⟨fun a b hab hba => absurd hba (lt_asymm hab)⟩
  exact List.eq_of_perm_of_sorted hperm (sortData_sorted_lt h1) (sortData_sorted_lt h2)

lemma hashData_eq_of_eqMap {d1 d2 : DataMap}
    (h1 : (keysOf d1).Nodup) (h2 : (keysOf d2).Nodup)
    (heq : dataEqOptB d1 d2 = true) : hashData d1 = hashData d2 := by
  have hsort := sortData_eq_of_lookupOpt_eq h1 h2 (dataEqOptB_lookupOpt heq)
  simp only [hashData, serializeSecretData, hsort]

/-- C9 counterexample: it is not the case that any two data maps
differing in some field's value have different hash strings — the
digest has finitely many values while the maps differing in the value
of field "a" are infinitely many, so two of them collide. -/
theorem hash_value_difference_counterexample :
    ¬ (∀ d1 d2 : DataMap, (∃ k, lookupOpt d1 k ≠ lookupOpt d2 k) →
        hashData d1 ≠ hashData d2) := by
  intro hall
  obtain ⟨d1, d2, hdiff, heq⟩ := hash_collision_exists
  exact hall d1 d2 hdiff heq

/-- C9 amended: the data-map hash is deterministic and independent of
field insertion order — maps equal as mappings (same keys, same byte
values) hash to the same string — but a value difference guarantees a
different hash only up to SHA-256 collisions: there exist maps
differing in a field's value whose hashes coincide. -/
theorem hash_deterministic_amended :
    (∀ d1 d2 : DataMap, (keysOf d1).Nodup → (keysOf d2).Nodup →
      dataEqOptB d1 d2 = true → hashData d1 = hashData d2) ∧
    (∃ d1 d2 : DataMap, (∃ k, lookupOpt d1 k ≠ lookupOpt d2 k) ∧
      hashData d1 = hashData d2) :=
  ⟨fun _ _ h1 h2 h => hashData_eq_of_eqMap h1 h2 h, hash_collision_exists⟩

/-- Witness for C9: the maps a=1, b=2 and b=2, a=1 (equal as mappings,
inserted in opposite order) hash identically. -/
theorem hash_deterministic_amended_witness :
    hashData [("a", [49]), ("b", [50])] = hashData [("b", [50]), ("a", [49])] :=
  hash_deterministic_amended.1 [("a", [49]), ("b", [50])] [("b", [50]), ("a", [49])]
    (by decide) (by decide) (by decide)

/-- C4 counterexample: with a shadow holding field "a" and a live
secret holding no fields at all, the maps differ in the spec's sense
(a field present in one and absent from the other) yet
AreFieldsChanged returns false, refuting the claimed equivalence. -/
theorem fields_changed_counterexample :
    ¬ (AreFieldsChanged
        { name := "s-old", data := [("a", [120])], annotations := [], labels := [] }
        { name := "s", data := [], annotations := [], labels := [] } = true ↔
       specFieldDiffers [("a", [120])] [] = true) := by
  decide

/-- C4 amended: AreFieldsChanged returns true exactly when some field
of the CURRENT data map reads differently (a missing key reading as
the empty byte string) from the previous map at that key — fields
present only in the previous map are not detected; accordingly
AreCredsChanged (when all its store reads succeed) returns true
exactly when some named secret has such a current-side difference
against its shadow. -/
theorem fields_changed_amended :
    (∀ oldS newS : Secret,
      AreFieldsChanged oldS newS = true ↔
        ∃ k ∈ keysOf newS.data, lookupD oldS.data k ≠ lookupD newS.data k) ∧
    (∀ (env : Env) (names : List String),
      getsOk env names = true →
      (AreCredsChanged env names = .ok true ↔
        ∃ n ∈ names, ∃ live shadow : Secret,
          getSecretE env n = .ok live ∧
          getSecretE env (getOldSecretName n) = .ok shadow ∧
          AreFieldsChanged shadow live = true)) := by
  refine ⟨areFieldsChanged_iff, ?_⟩
  intro env names
  induction names with
  | nil =>
    intro h
    simp [AreCredsChanged]
  | cons n rest ih =>
    intro h
    simp only [getsOk, List.all_cons, Bool.and_eq_true] at h
    obtain ⟨⟨hok1, hok2⟩, hrest⟩ := h
    obtain ⟨live, hlive⟩ := exists_ok_of_isOk hok1
    obtain ⟨shadow, hshadow⟩ := exists_ok_of_isOk hok2
    have ihr := ih hrest
    simp only [AreCredsChanged, hlive, hshadow]
    by_cases hch : AreFieldsChanged shadow live = true
    · rw [if_pos hch]
      exact iff_of_true rfl ⟨n, List.mem_cons_self n rest, live, shadow, hlive, hshadow, hch⟩
    · rw [if_neg hch, ihr]
      constructor
      · rintro ⟨m, hm, live2, shadow2, ha, hb, hcx⟩
        exact ⟨m, List.mem_cons_of_mem n hm, live2, shadow2, ha, hb, hcx⟩
      · rintro ⟨m, hm, live2, shadow2, ha, hb, hcx⟩
        rcases List.mem_cons.mp hm with rfl | hm2
        · rw [hlive] at ha
          rw [hshadow] at hb
          cases Except.ok.inj ha
          cases Except.ok.inj hb
          exact absurd hcx hch
        · exact ⟨m, hm2, live2, shadow2, ha, hb, hcx⟩

/-- Witness for C4: the equivalence at the concrete shadow/live pair,
and the AreCredsChanged form on the concrete store. -/
theorem fields_changed_amended_witness :
    (AreFieldsChanged secShadow secLive = true ↔
      ∃ k ∈ keysOf secLive.data, lookupD secShadow.data k ≠ lookupD secLive.data k) ∧
    (AreCredsChanged envBoth ["s"] = .ok true ↔
      ∃ n ∈ ["s"], ∃ live shadow : Secret,
        getSecretE envBoth n = .ok live ∧
        getSecretE envBoth (getOldSecretName n) = .ok shadow ∧
        AreFieldsChanged shadow live = true) :=
  ⟨fields_changed_amended.1 secShadow secLive,
   fields_changed_amended.2 envBoth ["s"] (by decide)⟩

end CredMgr
